import Mathlib

/-!
# Verification of the Stockholm-format reader (`skbio/io/format/stockholm.py`)

A shallow embedding of the Stockholm multiple-sequence-alignment reader.
Python dictionaries (`dict` / `OrderedDict`) are modelled as insertion-ordered
association lists, Python list indexing as an `Except` computation that can
fail with an `IndexError`, and the `StockholmFormatError` messages raised by
the source as a structured error type.  The external collaborators
(`Protein`/sequence constructors and `TabularMSA`) are out of scope of the
core being modelled; the assembled alignment is represented structurally.
-/

namespace Stockholm

/-- The distinct `StockholmFormatError` messages raised by the source, as a
structured taxonomy.  Each constructor corresponds to one `raise
StockholmFormatError(...)` site:
* `nonexistentData label` — "Markup line references nonexistent data %r."
* `duplicateGR feature label` — "Found duplicate GR label %r associated with data label %r"
* `duplicateGC feature` — "Found duplicate GC label %r."
* `multipleDataLines label` — "Found multiple data lines under same name: %r"
* `noData` — "No data present in file." -/
inductive StockholmErr where
  | nonexistentData (label : String)
  | duplicateGR (feature label : String)
  | duplicateGC (feature : String)
  | multipleDataLines (label : String)
  | noData
deriving DecidableEq

/-- A failure of the Python code: either a raised `StockholmFormatError`, or
an uncaught `IndexError` from an out-of-bounds list subscript. -/
inductive PyError where
  | stockholm (e : StockholmErr)
  | indexError
deriving DecidableEq

/-- Python list subscript `l[i]` (for `0 ≤ i`): returns the element, or raises
`IndexError` when out of bounds. -/
def pyGet {α : Type} (l : List α) (i : Nat) : Except PyError α :=
  match l.get? i with
  | some x => .ok x
  | none => .error .indexError

/-- Ordered-dictionary lookup on an association list (`d[k]` / `d.get(k)`). -/
def alistLookup {α : Type} : List (String × α) → String → Option α
  | [], _ => none
  | (k', v) :: rest, k => if k' = k then some v else alistLookup rest k

/-- Python dict assignment `d[k] = v`: replaces the value in place when the
key exists (keeping its position), appends a new entry otherwise — exactly
the insertion-order behaviour of `dict`/`OrderedDict`. -/
def alistUpd {α : Type} : List (String × α) → String → α → List (String × α)
  | [], k, v => [(k, v)]
  | (k', v') :: rest, k, v =>
    if k' = k then (k, v) :: rest else (k', v') :: alistUpd rest k v

/-- Python `s.startswith(pre)`: the first `len(pre)` characters equal `pre`. -/
def pyStartsWith (s pre : String) : Bool :=
  decide (s.toList.take pre.toList.length = pre.toList)

/-- Python `s.isspace()`: non-empty and all characters whitespace. -/
def pyIsSpace (s : String) : Bool :=
  !s.isEmpty && s.toList.all Char.isWhitespace

/-- Worker for `pySplitWs`: `cur` holds the reversed characters of the
chunk being accumulated. -/
def pySplitWsAux : List Char → List Char → List String
  | [], cur => if cur.isEmpty then [] else [String.mk cur.reverse]
  | c :: rest, cur =>
    if c.isWhitespace then
      if cur.isEmpty then pySplitWsAux rest []
      else String.mk cur.reverse :: pySplitWsAux rest []
    else pySplitWsAux rest (c :: cur)

/-- Python `s.split()` with no argument: split on runs of whitespace,
discarding empty chunks. -/
def pySplitWs (s : String) : List String :=
  pySplitWsAux s.toList []

/-- Worker for `pySplitSp`: `fuel` splits remaining, `cur` the reversed
characters of the chunk being accumulated. -/
def pySplitSpAux : Nat → List Char → List Char → List String
  | _, cur, [] => [String.mk cur.reverse]
  | 0, cur, rest => [String.mk (cur.reverse ++ rest)]
  | fuel + 1, cur, c :: rest =>
    if c = ' ' then String.mk cur.reverse :: pySplitSpAux fuel [] rest
    else pySplitSpAux (fuel + 1) (c :: cur) rest

/-- Python `s.split(' ', maxsplit)`: split on single spaces, at most
`maxsplit` times, keeping empty chunks between consecutive spaces. -/
def pySplitSp (s : String) (maxsplit : Nat) : List String :=
  pySplitSpAux maxsplit [] s.toList

/-- Python `s.rstrip('\n')`: drop trailing newline characters. -/
def pyRstripNl (s : String) : String :=
  String.mk (s.toList.reverse.dropWhile (fun c => c = '\n')).reverse

/-- Python `'\n' in s`. -/
def pyContainsNl (s : String) : Bool :=
  s.toList.any (fun c => c = '\n')

/-- Source `_remove_newline`: strips trailing `'\n'` characters from the last
element of the (always non-empty at its call sites) split-field list. -/
def _remove_newline (line : List String) : List String :=
  match line.get? (line.length - 1) with
  | some last =>
    if pyContainsNl last then line.set (line.length - 1) (pyRstripNl last)
    else line
  | none => line

/-- The `_SeqData` namedtuple: raw sequence text plus the per-sequence
metadata and positional (per-column) metadata mappings. -/
structure SeqData where
  seq : String
  metadata : List (String × String)
  pos_metadata : List (String × List Char)
deriving DecidableEq

/-- The `dna_data` ordered dictionary: label → `SeqData`, in first-seen order. -/
abbrev DnaData := List (String × SeqData)

/-- Source `is_data_line`: a line that does not start with `#` or `//` and
is not whitespace-only. -/
def is_data_line (line : String) : Bool :=
  !(pyStartsWith line "#" || pyStartsWith line "//" || pyIsSpace line)

/-- Source `_stockholm_sniffer` on the stream's lines: `True` iff the stream
has a first line whose first 15 characters are `# STOCKHOLM 1.0`.  Only the
head of the line list is ever inspected. -/
def _stockholm_sniffer (lines : List String) : Bool :=
  match lines with
  | [] => false
  | line :: _ => String.mk (line.toList.take 15) = "# STOCKHOLM 1.0"

/-- Source `_parse_stockholm_line_gf`: `line.split(' ', 2)`, strip the
newline off the last field, then `metadata[line[1]]` is set to `line[2]`,
concatenating with a single space when the feature key is already present. -/
def _parse_stockholm_line_gf (line : String) (metadata : List (String × String)) :
    Except PyError (List (String × String)) :=
  let l := _remove_newline (pySplitSp line 2)
  match pyGet l 1 with
  | .error e => .error e
  | .ok gf_feature =>
    match pyGet l 2 with
    | .error e => .error e
    | .ok gf_feature_data =>
      match alistLookup metadata gf_feature with
      | some old => .ok (alistUpd metadata gf_feature (old ++ " " ++ gf_feature_data))
      | none => .ok (alistUpd metadata gf_feature gf_feature_data)

/-- Source `_parse_stockholm_line_gs`: `line.split(' ', 3)`, newline stripped
from the last field; errors when the named sequence is absent from
`dna_data`; when present, writes `metadata[line[2]] = line[3]` only if that
record's metadata mapping is currently empty (falsy), otherwise leaves
everything unchanged. -/
def _parse_stockholm_line_gs (line : String) (dna_data : DnaData) :
    Except PyError DnaData :=
  let l := _remove_newline (pySplitSp line 3)
  match pyGet l 1 with
  | .error e => .error e
  | .ok data_seq_name =>
    match pyGet l 2 with
    | .error e => .error e
    | .ok gs_feature =>
      match alistLookup dna_data data_seq_name with
      | some sd =>
        if sd.metadata.isEmpty then
          match pyGet l 3 with
          | .error e => .error e
          | .ok v =>
            .ok (alistUpd dna_data data_seq_name
                  { sd with metadata := alistUpd sd.metadata gs_feature v })
        else .ok dna_data
      | none => .error (.stockholm (.nonexistentData data_seq_name))

/-- Source `_parse_stockholm_line_gr`: `line.split()` (whitespace), newline
stripped; errors when the named sequence is absent; errors when the GR
feature is already present in that record's positional metadata; otherwise
stores `list(line[3])` under the feature. -/
def _parse_stockholm_line_gr (line : String) (dna_data : DnaData) :
    Except PyError DnaData :=
  let l := _remove_newline (pySplitWs line)
  match pyGet l 1 with
  | .error e => .error e
  | .ok data_seq_name =>
    match pyGet l 2 with
    | .error e => .error e
    | .ok gr_feature =>
      match alistLookup dna_data data_seq_name with
      | some sd =>
        if (alistLookup sd.pos_metadata gr_feature).isSome then
          .error (.stockholm (.duplicateGR gr_feature data_seq_name))
        else
          match pyGet l 3 with
          | .error e => .error e
          | .ok v =>
            .ok (alistUpd dna_data data_seq_name
                  { sd with pos_metadata := alistUpd sd.pos_metadata gr_feature v.toList })
      | none => .error (.stockholm (.nonexistentData data_seq_name))

/-- Source `_parse_stockholm_line_gc`: `line.split()`, newline stripped;
errors when the GC feature is already present in the positional metadata;
otherwise stores `list(line[2])` under the feature. -/
def _parse_stockholm_line_gc (line : String)
    (positional_metadata : List (String × List Char)) :
    Except PyError (List (String × List Char)) :=
  let l := _remove_newline (pySplitWs line)
  match pyGet l 1 with
  | .error e => .error e
  | .ok gc_feature =>
    if (alistLookup positional_metadata gc_feature).isSome then
      .error (.stockholm (.duplicateGC gc_feature))
    else
      match pyGet l 2 with
      | .error e => .error e
      | .ok v => .ok (alistUpd positional_metadata gc_feature v.toList)

/-- Source `_parse_stockholm_line_data`: `line.split()`; a fresh label
creates a `SeqData` with `seq = line[1]` and empty metadata mappings; an
already-seen label raises the multiple-data-lines error. -/
def _parse_stockholm_line_data (line : String) (dna_data : DnaData) :
    Except PyError DnaData :=
  let l := pySplitWs line
  match pyGet l 0 with
  | .error e => .error e
  | .ok data_seq_name =>
    if (alistLookup dna_data data_seq_name).isNone then
      match pyGet l 1 with
      | .error e => .error e
      | .ok s =>
        .ok (alistUpd dna_data data_seq_name { seq := s, metadata := [], pos_metadata := [] })
    else .error (.stockholm (.multipleDataLines data_seq_name))

/-- First pass of `_stockholm_to_tabular_msa`: every line classified as a
data line is fed to `_parse_stockholm_line_data`. -/
def dataPass : List String → DnaData → Except PyError DnaData
  | [], d => .ok d
  | line :: rest, d =>
    if is_data_line line then
      match _parse_stockholm_line_data line d with
      | .error e => .error e
      | .ok d' => dataPass rest d'
    else dataPass rest d

/-- Second pass of `_stockholm_to_tabular_msa` (after `fh.seek(0)`): the
`#=GF` / `#=GS` / `#=GR` / `#=GC` dispatch chain, in source order. -/
def markupPass : List String → List (String × String) → DnaData →
    List (String × List Char) →
    Except PyError (List (String × String) × DnaData × List (String × List Char))
  | [], m, d, p => .ok (m, d, p)
  | line :: rest, m, d, p =>
    if pyStartsWith line "#=GF" then
      match _parse_stockholm_line_gf line m with
      | .error e => .error e
      | .ok m' => markupPass rest m' d p
    else if pyStartsWith line "#=GS" then
      match _parse_stockholm_line_gs line d with
      | .error e => .error e
      | .ok d' => markupPass rest m d' p
    else if pyStartsWith line "#=GR" then
      match _parse_stockholm_line_gr line d with
      | .error e => .error e
      | .ok d' => markupPass rest m d' p
    else if pyStartsWith line "#=GC" then
      match _parse_stockholm_line_gc line p with
      | .error e => .error e
      | .ok p' => markupPass rest m d p'
    else markupPass rest m d p

/-- A constructed sequence as handed to the external sequence constructor:
raw characters plus the metadata mappings, with empty (falsy) mappings
normalised to `None`. -/
structure AssembledSeq where
  seq : String
  metadata : Option (List (String × String))
  positional_metadata : Option (List (String × List Char))
deriving DecidableEq

/-- The assembly loop body: `_replace` empty mappings by `None`, then
construct the sequence value. -/
def assembleSeq (sd : SeqData) : AssembledSeq :=
  { seq := sd.seq,
    metadata := if sd.metadata.isEmpty then none else some sd.metadata,
    positional_metadata := if sd.pos_metadata.isEmpty then none else some sd.pos_metadata }

/-- The assembled alignment (the arguments of the final `TabularMSA(...)`
call): ordered sequence list, alignment metadata, positional metadata
(normalised to `None` when empty), and the label index. -/
structure MSA where
  seqs : List AssembledSeq
  metadata : List (String × String)
  positional_metadata : Option (List (String × List Char))
  index : List String
deriving DecidableEq

/-- Source `_stockholm_to_tabular_msa` on the stream's lines: data pass,
rewind, markup pass, then assembly with the empty-alignment check. -/
def _stockholm_to_tabular_msa (lines : List String) : Except PyError MSA :=
  match dataPass lines [] with
  | .error e => .error e
  | .ok d0 =>
    match markupPass lines [] d0 [] with
    | .error e => .error e
    | .ok (m, d, p) =>
      let seqs := d.map (fun kv => assembleSeq kv.2)
      if seqs.isEmpty then .error (.stockholm .noData)
      else
        .ok { seqs := seqs, metadata := m,
              positional_metadata := if p.isEmpty then none else some p,
              index := d.map Prod.fst }

/-- The labels of the stream's data lines, in file order: first
whitespace-delimited field of every line the classifier accepts. -/
def dataLabels (lines : List String) : List String :=
  lines.filterMap (fun line => if is_data_line line then (pySplitWs line).head? else none)

deriving instance DecidableEq for Except

/-! ## Association-list lemmas -/

theorem alistLookup_alistUpd {α : Type} (l : List (String × α)) (k : String) (v : α)
    (k' : String) :
    alistLookup (alistUpd l k v) k' = if k' = k then some v else alistLookup l k' := by
  induction l with
  | nil =>
    simp only [alistUpd, alistLookup]
    by_cases h : k = k'
    · rw [if_pos h, if_pos h.symm]
    · rw [if_neg h, if_neg (fun hh => h hh.symm)]
  | cons kv rest ih =>
    obtain ⟨k₀, v₀⟩ := kv
    simp only [alistUpd]
    by_cases h0 : k₀ = k
    · subst h0
      simp only [if_pos rfl, alistLookup]
      by_cases h' : k₀ = k'
      · rw [if_pos h', if_pos h'.symm]
      · rw [if_neg h', if_neg (fun hh => h' hh.symm), if_neg h']
    · rw [if_neg h0]
      simp only [alistLookup]
      by_cases h1 : k₀ = k'
      · have hk : ¬k' = k := fun hh => h0 (h1.trans hh)
        rw [if_pos h1, if_pos h1, if_neg hk]
      · rw [if_neg h1, if_neg h1, ih]

theorem alistLookup_isSome_mem_keys {α : Type} {l : List (String × α)} {k : String}
    (h : (alistLookup l k).isSome = true) : k ∈ l.map Prod.fst := by
  induction l with
  | nil => simp [alistLookup] at h
  | cons kv rest ih =>
    obtain ⟨k₀, v₀⟩ := kv
    simp only [alistLookup] at h
    by_cases h0 : k₀ = k
    · simp [h0]
    · rw [if_neg h0] at h
      simp [ih h]

theorem alistUpd_keys_of_isSome {α : Type} {l : List (String × α)} {k : String}
    (v : α) (h : (alistLookup l k).isSome = true) :
    (alistUpd l k v).map Prod.fst = l.map Prod.fst := by
  induction l with
  | nil => simp [alistLookup] at h
  | cons kv rest ih =>
    obtain ⟨k₀, v₀⟩ := kv
    simp only [alistLookup] at h
    simp only [alistUpd]
    by_cases h0 : k₀ = k
    · rw [if_pos h0]
      simp [h0]
    · rw [if_neg h0] at h
      rw [if_neg h0]
      simp [ih h]

theorem alistUpd_keys_of_none {α : Type} {l : List (String × α)} {k : String}
    (v : α) (h : alistLookup l k = none) :
    (alistUpd l k v).map Prod.fst = l.map Prod.fst ++ [k] := by
  induction l with
  | nil => simp [alistUpd]
  | cons kv rest ih =>
    obtain ⟨k₀, v₀⟩ := kv
    simp only [alistLookup] at h
    simp only [alistUpd]
    by_cases h0 : k₀ = k
    · rw [if_pos h0] at h
      simp at h
    · rw [if_neg h0] at h
      rw [if_neg h0]
      simp [ih h]

/-! ## Per-line parser claims -/

/-- Claim C2: a `#=GS` line naming an existing sequence record writes the
feature/value pair into that record's metadata mapping only when the mapping
is currently empty; when the record's metadata already has any content the
line is a no-op — the parser returns the data unchanged and raises no
error. -/
theorem gs_line_writes_metadata_only_when_empty (line : String) (d : DnaData)
    (name feat : String) (sd : SeqData)
    (h₁ : pyGet (_remove_newline (pySplitSp line 3)) 1 = .ok name)
    (h₂ : pyGet (_remove_newline (pySplitSp line 3)) 2 = .ok feat)
    (h₃ : alistLookup d name = some sd) :
    (sd.metadata ≠ [] → _parse_stockholm_line_gs line d = .ok d) ∧
    (sd.metadata = [] → ∀ v, pyGet (_remove_newline (pySplitSp line 3)) 3 = .ok v →
      _parse_stockholm_line_gs line d =
        .ok (alistUpd d name { sd with metadata := [(feat, v)] })) := by
  constructor
  · intro hne
    have hemp : sd.metadata.isEmpty = false := by
      cases hsd : sd.metadata with
      | nil => exact absurd hsd hne
      | cons a t => simp
    simp only [_parse_stockholm_line_gs, h₁, h₂, h₃, hemp, Bool.false_eq_true, if_false]
  · intro hm v hv
    have hemp : sd.metadata.isEmpty = true := by simp [hm]
    simp only [_parse_stockholm_line_gs, h₁, h₂, h₃, hemp, if_true, hv]
    rw [hm]
    simp [alistUpd]

/-- Witness for C2 at a concrete input: the record's metadata is non-empty,
so the `#=GS` line is a no-op. -/
theorem gs_line_writes_metadata_only_when_empty_wit :
    pyGet (_remove_newline (pySplitSp "#=GS s1 AC hello\n" 3)) 1 = .ok "s1" ∧
    pyGet (_remove_newline (pySplitSp "#=GS s1 AC hello\n" 3)) 2 = .ok "AC" ∧
    alistLookup [("s1", SeqData.mk "AAA" [("X", "y")] [])] "s1" =
      some (SeqData.mk "AAA" [("X", "y")] []) ∧
    _parse_stockholm_line_gs "#=GS s1 AC hello\n"
      [("s1", SeqData.mk "AAA" [("X", "y")] [])] =
      .ok [("s1", SeqData.mk "AAA" [("X", "y")] [])] :=
  ⟨by decide, by decide, by decide,
    (gs_line_writes_metadata_only_when_empty "#=GS s1 AC hello\n"
      [("s1", SeqData.mk "AAA" [("X", "y")] [])] "s1" "AC"
      (SeqData.mk "AAA" [("X", "y")] [])
      (by decide) (by decide) (by decide)).1 (by decide)⟩

/-- Claim C5: a `#=GF` feature key seen for the first time maps to its value
unmodified, and a second `#=GF` line with the same key concatenates the two
values in line order with exactly one separating space. -/
theorem gf_duplicate_key_concatenates (line₁ line₂ : String)
    (m : List (String × String)) (k v₁ v₂ : String)
    (h₁ : pyGet (_remove_newline (pySplitSp line₁ 2)) 1 = .ok k)
    (h₂ : pyGet (_remove_newline (pySplitSp line₁ 2)) 2 = .ok v₁)
    (h₃ : pyGet (_remove_newline (pySplitSp line₂ 2)) 1 = .ok k)
    (h₄ : pyGet (_remove_newline (pySplitSp line₂ 2)) 2 = .ok v₂)
    (h₅ : alistLookup m k = none) :
    _parse_stockholm_line_gf line₁ m = .ok (alistUpd m k v₁) ∧
    alistLookup (alistUpd m k v₁) k = some v₁ ∧
    _parse_stockholm_line_gf line₂ (alistUpd m k v₁) =
      .ok (alistUpd (alistUpd m k v₁) k (v₁ ++ " " ++ v₂)) ∧
    alistLookup (alistUpd (alistUpd m k v₁) k (v₁ ++ " " ++ v₂)) k =
      some (v₁ ++ " " ++ v₂) := by
  have l₁ : alistLookup (alistUpd m k v₁) k = some v₁ := by
    rw [alistLookup_alistUpd, if_pos rfl]
  refine ⟨?_, l₁, ?_, ?_⟩
  · simp only [_parse_stockholm_line_gf, h₁, h₂, h₅]
  · simp only [_parse_stockholm_line_gf, h₃, h₄, l₁]
  · rw [alistLookup_alistUpd, if_pos rfl]

/-- Witness for C5 at concrete inputs: keys `RA`, values `x y` then `z`,
yielding `x y z`. -/
theorem gf_duplicate_key_concatenates_wit :
    pyGet (_remove_newline (pySplitSp "#=GF RA x y\n" 2)) 1 = .ok "RA" ∧
    pyGet (_remove_newline (pySplitSp "#=GF RA x y\n" 2)) 2 = .ok "x y" ∧
    pyGet (_remove_newline (pySplitSp "#=GF RA z\n" 2)) 1 = .ok "RA" ∧
    pyGet (_remove_newline (pySplitSp "#=GF RA z\n" 2)) 2 = .ok "z" ∧
    alistLookup ([] : List (String × String)) "RA" = none ∧
    alistLookup (alistUpd (alistUpd [] "RA" "x y") "RA" ("x y" ++ " " ++ "z")) "RA" =
      some ("x y" ++ " " ++ "z") :=
  ⟨by decide, by decide, by decide, by decide, by decide,
    (gf_duplicate_key_concatenates "#=GF RA x y\n" "#=GF RA z\n" [] "RA" "x y" "z"
      (by decide) (by decide) (by decide) (by decide) (by decide)).2.2.2⟩

/-- Claim C6: a `#=GC` line whose feature is already present in the column
metadata fails with the duplicate-GC-label error (never a silent overwrite);
a fresh feature stores the column-data token as a list of single
characters. -/
theorem gc_duplicate_label_errors (line : String)
    (pm : List (String × List Char)) (feat : String)
    (h₁ : pyGet (_remove_newline (pySplitWs line)) 1 = .ok feat) :
    ((alistLookup pm feat).isSome = true →
      _parse_stockholm_line_gc line pm = .error (.stockholm (.duplicateGC feat))) ∧
    (alistLookup pm feat = none →
      ∀ v, pyGet (_remove_newline (pySplitWs line)) 2 = .ok v →
        _parse_stockholm_line_gc line pm = .ok (alistUpd pm feat v.toList)) := by
  constructor
  · intro hdup
    simp only [_parse_stockholm_line_gc, h₁, hdup, if_true]
  · intro hfresh v hv
    have : (alistLookup pm feat).isSome = false := by simp [hfresh]
    simp only [_parse_stockholm_line_gc, h₁, this, Bool.false_eq_true, if_false, hv]

/-- Witness for C6 at a concrete input: a second `#=GC SS_cons` line fails
with the duplicate-GC-label error. -/
theorem gc_duplicate_label_errors_wit :
    pyGet (_remove_newline (pySplitWs "#=GC SS_cons ..aa\n")) 1 = .ok "SS_cons" ∧
    (alistLookup [("SS_cons", ['.', '.'])] "SS_cons").isSome = true ∧
    _parse_stockholm_line_gc "#=GC SS_cons ..aa\n" [("SS_cons", ['.', '.'])] =
      .error (.stockholm (.duplicateGC "SS_cons")) :=
  ⟨by decide, by decide,
    (gc_duplicate_label_errors "#=GC SS_cons ..aa\n" [("SS_cons", ['.', '.'])]
      "SS_cons" (by decide)).1 (by decide)⟩

/-- Claim C7: a data line whose label was already seen on an earlier data
line fails with the multiple-data-lines error; the first record for the
label is never overwritten (the parser aborts instead of producing new
data). -/
theorem data_line_duplicate_label_errors (line : String) (d : DnaData) (name : String)
    (h₁ : pyGet (pySplitWs line) 0 = .ok name)
    (h₂ : (alistLookup d name).isSome = true) :
    _parse_stockholm_line_data line d =
      .error (.stockholm (.multipleDataLines name)) ∧
    ∀ d', _parse_stockholm_line_data line d ≠ .ok d' := by
  have hn : (alistLookup d name).isNone = false := by
    obtain ⟨x, hx⟩ := Option.isSome_iff_exists.mp h₂
    simp [hx]
  have heq : _parse_stockholm_line_data line d =
      .error (.stockholm (.multipleDataLines name)) := by
    simp only [_parse_stockholm_line_data, h₁, hn, Bool.false_eq_true, if_false]
  exact ⟨heq, fun d' hcon => by rw [heq] at hcon; exact Except.noConfusion hcon⟩

/-- Witness for C7 at a concrete input: a second data line labelled `s1`
fails with the multiple-data-lines error. -/
theorem data_line_duplicate_label_errors_wit :
    pyGet (pySplitWs "s1 CCC\n") 0 = .ok "s1" ∧
    (alistLookup [("s1", SeqData.mk "AAA" [] [])] "s1").isSome = true ∧
    _parse_stockholm_line_data "s1 CCC\n" [("s1", SeqData.mk "AAA" [] [])] =
      .error (.stockholm (.multipleDataLines "s1")) :=
  ⟨by decide, by decide,
    (data_line_duplicate_label_errors "s1 CCC\n" [("s1", SeqData.mk "AAA" [] [])]
      "s1" (by decide) (by decide)).1⟩

/-- Counterexample to claim C3 as stated.  First conjunct: on `"#=GF DE\n"`
(two whitespace-delimited fields) the GF parser fails with an uncaught
`IndexError` from `line[2]`, not with a descriptive `StockholmFormatError`
of the taxonomy.  Remaining conjuncts: `"#=GF DE \n"` (trailing space) also
has only two whitespace-delimited fields, yet the parser does not fail at
all — it stores an empty value for `DE`. -/
theorem gf_short_line_cex :
    _parse_stockholm_line_gf "#=GF DE\n" [] = .error .indexError ∧
    (pySplitWs "#=GF DE \n").length = 2 ∧
    _parse_stockholm_line_gf "#=GF DE \n" [] = .ok [("DE", "")] :=
  ⟨by decide, by decide, by decide⟩

/-- Claim C3 (amended): a `#=GF` line whose single-space `maxsplit = 2`
split (after newline stripping) has fewer than three fields makes the GF
parser fail, but the failure is an out-of-bounds field access
(`IndexError`), not a descriptive parse error of the taxonomy. -/
theorem gf_short_line_index_error (line : String) (m : List (String × String))
    (hlen : (_remove_newline (pySplitSp line 2)).length < 3) :
    _parse_stockholm_line_gf line m = .error .indexError := by
  cases hget1 : (_remove_newline (pySplitSp line 2)).get? 1 with
  | none => simp only [_parse_stockholm_line_gf, pyGet, hget1]
  | some x =>
    have hget2 : (_remove_newline (pySplitSp line 2)).get? 2 = none :=
      List.get?_eq_none.mpr (by omega)
    simp only [_parse_stockholm_line_gf, pyGet, hget1, hget2]

/-- Witness for the amended C3 at a concrete input. -/
theorem gf_short_line_index_error_wit :
    (_remove_newline (pySplitSp "#=GF DE\n" 2)).length < 3 ∧
    _parse_stockholm_line_gf "#=GF DE\n" [] = .error .indexError :=
  ⟨by decide, gf_short_line_index_error "#=GF DE\n" [] (by decide)⟩

/-- Claim C9: the sniffer returns true iff the stream is non-empty and the
first 15 characters of its first line equal `# STOCKHOLM 1.0`; the empty
stream and any shorter or differing first line yield false; and the result
depends only on the first line (the rest of the stream is never read). -/
theorem sniffer_first_line_signature :
    (∀ lines : List String, _stockholm_sniffer lines = true ↔
      ∃ l rest, lines = l :: rest ∧
        String.mk (l.toList.take 15) = "# STOCKHOLM 1.0") ∧
    (∀ (l : String) (r r' : List String),
      _stockholm_sniffer (l :: r) = _stockholm_sniffer (l :: r')) ∧
    _stockholm_sniffer [] = false := by
  refine ⟨?_, fun l r r' => rfl, rfl⟩
  intro lines
  cases lines with
  | nil =>
    simp only [_stockholm_sniffer]
    constructor
    · intro h; exact absurd h (by simp)
    · rintro ⟨l, rest, heq, -⟩; exact List.noConfusion heq
  | cons l rest =>
    simp only [_stockholm_sniffer, decide_eq_true_eq]
    constructor
    · intro h; exact ⟨l, rest, rfl, h⟩
    · rintro ⟨l', rest', heq, hsig⟩
      injection heq with he ht
      rw [he]; exact hsig

/-- Witness for C9: the sniffer accepts a stream whose first line carries
the signature, read off through the theorem itself. -/
theorem sniffer_first_line_signature_wit :
    _stockholm_sniffer ["# STOCKHOLM 1.0\n", "junk"] = true :=
  (sniffer_first_line_signature.1 ["# STOCKHOLM 1.0\n", "junk"]).mpr
    ⟨"# STOCKHOLM 1.0\n", ["junk"], rfl, by decide⟩

/-- Claim C10: under the precondition that the line has at least two
whitespace-delimited fields, the data-line parser can only succeed or fail
with the documented duplicate-label error; and a one-field line that the
classifier nevertheless accepts as a data line (`"seq1\n"`) makes the
parser fail with an out-of-bounds field access, which is not an error of
the documented taxonomy. -/
theorem data_line_two_field_precondition :
    (∀ (line : String) (d : DnaData), 2 ≤ (pySplitWs line).length →
      (∃ d', _parse_stockholm_line_data line d = .ok d') ∨
      (∃ name, _parse_stockholm_line_data line d =
        .error (.stockholm (.multipleDataLines name)))) ∧
    (is_data_line "seq1\n" = true ∧
      _parse_stockholm_line_data "seq1\n" [] = .error .indexError) := by
  refine ⟨?_, by decide, by decide⟩
  intro line d hlen
  obtain ⟨name, hname⟩ : ∃ x, (pySplitWs line).get? 0 = some x :=
    ⟨_, List.get?_eq_get (by omega)⟩
  obtain ⟨s, hs⟩ : ∃ x, (pySplitWs line).get? 1 = some x :=
    ⟨_, List.get?_eq_get (by omega)⟩
  by_cases hmem : (alistLookup d name).isNone = true
  · exact Or.inl ⟨alistUpd d name { seq := s, metadata := [], pos_metadata := [] }, by
      simp only [_parse_stockholm_line_data, pyGet, hname, hs, hmem, if_true]⟩
  · have hmem' : (alistLookup d name).isNone = false := eq_false_of_ne_true hmem
    exact Or.inr ⟨name, by
      simp only [_parse_stockholm_line_data, pyGet, hname, hmem',
        Bool.false_eq_true, if_false]⟩

/-- Witness for C10 at a concrete input: a well-formed two-field data line
parses without an out-of-bounds access. -/
theorem data_line_two_field_precondition_wit :
    2 ≤ (pySplitWs "a b\n").length ∧
    ((∃ d', _parse_stockholm_line_data "a b\n" [] = .ok d') ∨
      (∃ name, _parse_stockholm_line_data "a b\n" [] =
        .error (.stockholm (.multipleDataLines name)))) :=
  ⟨by decide, data_line_two_field_precondition.1 "a b\n" [] (by decide)⟩

/-! ## Inversion and classification lemmas for the two-pass driver -/

theorem pyGet_cases {α : Type} (l : List α) (i : Nat) :
    pyGet l i = .error .indexError ∨ ∃ x, pyGet l i = .ok x := by
  cases h : l.get? i with
  | none => exact Or.inl (by simp only [pyGet, h])
  | some x => exact Or.inr ⟨x, by simp only [pyGet, h]⟩

theorem pyStartsWith_disjoint {line p q : String}
    (hpq : p.toList.length = q.toList.length) (hne : p.toList ≠ q.toList)
    (h : pyStartsWith line p = true) : pyStartsWith line q = false := by
  have h' := of_decide_eq_true h
  apply decide_eq_false
  intro hc
  rw [hpq] at h'
  exact hne (h'.symm.trans hc)

theorem gf_error_classify {line : String} {m : List (String × String)} {e : PyError}
    (h : _parse_stockholm_line_gf line m = .error e) : e = .indexError := by
  rcases pyGet_cases (_remove_newline (pySplitSp line 2)) 1 with h1 | ⟨k, h1⟩
  · simp only [_parse_stockholm_line_gf, h1, Except.error.injEq] at h
    exact h.symm
  rcases pyGet_cases (_remove_newline (pySplitSp line 2)) 2 with h2 | ⟨v, h2⟩
  · simp only [_parse_stockholm_line_gf, h1, h2, Except.error.injEq] at h
    exact h.symm
  cases hk : alistLookup m k with
  | none =>
    simp only [_parse_stockholm_line_gf, h1, h2, hk] at h
    exact Except.noConfusion h
  | some old =>
    simp only [_parse_stockholm_line_gf, h1, h2, hk] at h
    exact Except.noConfusion h

theorem gs_ok_inv {line : String} {d d' : DnaData}
    (h : _parse_stockholm_line_gs line d = .ok d') :
    d'.map Prod.fst = d.map Prod.fst ∧
    (∀ name, pyGet (_remove_newline (pySplitSp line 3)) 1 = .ok name →
      (alistLookup d name).isSome = true) := by
  rcases pyGet_cases (_remove_newline (pySplitSp line 3)) 1 with h1 | ⟨name₀, h1⟩
  · simp only [_parse_stockholm_line_gs, h1] at h
    exact Except.noConfusion h
  rcases pyGet_cases (_remove_newline (pySplitSp line 3)) 2 with h2 | ⟨feat, h2⟩
  · simp only [_parse_stockholm_line_gs, h1, h2] at h
    exact Except.noConfusion h
  cases hk : alistLookup d name₀ with
  | none =>
    simp only [_parse_stockholm_line_gs, h1, h2, hk] at h
    exact Except.noConfusion h
  | some sd =>
    have hmem : ∀ name, pyGet (_remove_newline (pySplitSp line 3)) 1 = .ok name →
        (alistLookup d name).isSome = true := by
      intro name hn
      rw [h1] at hn
      injection hn with hn
      rw [← hn, hk]
      rfl
    refine ⟨?_, hmem⟩
    by_cases hemp : sd.metadata.isEmpty = true
    · rcases pyGet_cases (_remove_newline (pySplitSp line 3)) 3 with h3 | ⟨v, h3⟩
      · simp only [_parse_stockholm_line_gs, h1, h2, hk, hemp, if_true, h3] at h
        exact Except.noConfusion h
      · simp only [_parse_stockholm_line_gs, h1, h2, hk, hemp, if_true, h3,
          Except.ok.injEq] at h
        rw [← h]
        exact alistUpd_keys_of_isSome _ (by rw [hk]; rfl)
    · have hemp' : sd.metadata.isEmpty = false := eq_false_of_ne_true hemp
      simp only [_parse_stockholm_line_gs, h1, h2, hk, hemp', Bool.false_eq_true,
        if_false, Except.ok.injEq] at h
      rw [← h]

theorem gs_error_classify {line : String} {d : DnaData} {e : PyError}
    (h : _parse_stockholm_line_gs line d = .error e) :
    e = .indexError ∨ ∃ n, e = .stockholm (.nonexistentData n) := by
  rcases pyGet_cases (_remove_newline (pySplitSp line 3)) 1 with h1 | ⟨name₀, h1⟩
  · simp only [_parse_stockholm_line_gs, h1, Except.error.injEq] at h
    exact Or.inl h.symm
  rcases pyGet_cases (_remove_newline (pySplitSp line 3)) 2 with h2 | ⟨feat, h2⟩
  · simp only [_parse_stockholm_line_gs, h1, h2, Except.error.injEq] at h
    exact Or.inl h.symm
  cases hk : alistLookup d name₀ with
  | none =>
    simp only [_parse_stockholm_line_gs, h1, h2, hk, Except.error.injEq] at h
    exact Or.inr ⟨name₀, h.symm⟩
  | some sd =>
    by_cases hemp : sd.metadata.isEmpty = true
    · rcases pyGet_cases (_remove_newline (pySplitSp line 3)) 3 with h3 | ⟨v, h3⟩
      · simp only [_parse_stockholm_line_gs, h1, h2, hk, hemp, if_true, h3,
          Except.error.injEq] at h
        exact Or.inl h.symm
      · simp only [_parse_stockholm_line_gs, h1, h2, hk, hemp, if_true, h3] at h
        exact Except.noConfusion h
    · have hemp' : sd.metadata.isEmpty = false := eq_false_of_ne_true hemp
      simp only [_parse_stockholm_line_gs, h1, h2, hk, hemp', Bool.false_eq_true,
        if_false] at h
      exact Except.noConfusion h

theorem gr_ok_inv {line : String} {d d' : DnaData}
    (h : _parse_stockholm_line_gr line d = .ok d') :
    d'.map Prod.fst = d.map Prod.fst ∧
    (∀ name, pyGet (_remove_newline (pySplitWs line)) 1 = .ok name →
      (alistLookup d name).isSome = true) := by
  rcases pyGet_cases (_remove_newline (pySplitWs line)) 1 with h1 | ⟨name₀, h1⟩
  · simp only [_parse_stockholm_line_gr, h1] at h
    exact Except.noConfusion h
  rcases pyGet_cases (_remove_newline (pySplitWs line)) 2 with h2 | ⟨feat, h2⟩
  · simp only [_parse_stockholm_line_gr, h1, h2] at h
    exact Except.noConfusion h
  cases hk : alistLookup d name₀ with
  | none =>
    simp only [_parse_stockholm_line_gr, h1, h2, hk] at h
    exact Except.noConfusion h
  | some sd =>
    have hmem : ∀ name, pyGet (_remove_newline (pySplitWs line)) 1 = .ok name →
        (alistLookup d name).isSome = true := by
      intro name hn
      rw [h1] at hn
      injection hn with hn
      rw [← hn, hk]
      rfl
    refine ⟨?_, hmem⟩
    by_cases hdup : (alistLookup sd.pos_metadata feat).isSome = true
    · simp only [_parse_stockholm_line_gr, h1, h2, hk, hdup, if_true] at h
      exact Except.noConfusion h
    · have hdup' : (alistLookup sd.pos_metadata feat).isSome = false :=
        eq_false_of_ne_true hdup
      rcases pyGet_cases (_remove_newline (pySplitWs line)) 3 with h3 | ⟨v, h3⟩
      · simp only [_parse_stockholm_line_gr, h1, h2, hk, hdup', Bool.false_eq_true,
          if_false, h3] at h
        exact Except.noConfusion h
      · simp only [_parse_stockholm_line_gr, h1, h2, hk, hdup', Bool.false_eq_true,
          if_false, h3, Except.ok.injEq] at h
        rw [← h]
        exact alistUpd_keys_of_isSome _ (by rw [hk]; rfl)

theorem gr_error_classify {line : String} {d : DnaData} {e : PyError}
    (h : _parse_stockholm_line_gr line d = .error e) :
    e = .indexError ∨ (∃ n, e = .stockholm (.nonexistentData n)) ∨
      ∃ f n, e = .stockholm (.duplicateGR f n) := by
  rcases pyGet_cases (_remove_newline (pySplitWs line)) 1 with h1 | ⟨name₀, h1⟩
  · simp only [_parse_stockholm_line_gr, h1, Except.error.injEq] at h
    exact Or.inl h.symm
  rcases pyGet_cases (_remove_newline (pySplitWs line)) 2 with h2 | ⟨feat, h2⟩
  · simp only [_parse_stockholm_line_gr, h1, h2, Except.error.injEq] at h
    exact Or.inl h.symm
  cases hk : alistLookup d name₀ with
  | none =>
    simp only [_parse_stockholm_line_gr, h1, h2, hk, Except.error.injEq] at h
    exact Or.inr (Or.inl ⟨name₀, h.symm⟩)
  | some sd =>
    by_cases hdup : (alistLookup sd.pos_metadata feat).isSome = true
    · simp only [_parse_stockholm_line_gr, h1, h2, hk, hdup, if_true,
        Except.error.injEq] at h
      exact Or.inr (Or.inr ⟨feat, name₀, h.symm⟩)
    · have hdup' : (alistLookup sd.pos_metadata feat).isSome = false :=
        eq_false_of_ne_true hdup
      rcases pyGet_cases (_remove_newline (pySplitWs line)) 3 with h3 | ⟨v, h3⟩
      · simp only [_parse_stockholm_line_gr, h1, h2, hk, hdup', Bool.false_eq_true,
          if_false, h3, Except.error.injEq] at h
        exact Or.inl h.symm
      · simp only [_parse_stockholm_line_gr, h1, h2, hk, hdup', Bool.false_eq_true,
          if_false, h3] at h
        exact Except.noConfusion h

theorem gc_error_classify {line : String} {pm : List (String × List Char)} {e : PyError}
    (h : _parse_stockholm_line_gc line pm = .error e) :
    e = .indexError ∨ ∃ f, e = .stockholm (.duplicateGC f) := by
  rcases pyGet_cases (_remove_newline (pySplitWs line)) 1 with h1 | ⟨feat, h1⟩
  · simp only [_parse_stockholm_line_gc, h1, Except.error.injEq] at h
    exact Or.inl h.symm
  by_cases hdup : (alistLookup pm feat).isSome = true
  · simp only [_parse_stockholm_line_gc, h1, hdup, if_true, Except.error.injEq] at h
    exact Or.inr ⟨feat, h.symm⟩
  · have hdup' : (alistLookup pm feat).isSome = false := eq_false_of_ne_true hdup
    rcases pyGet_cases (_remove_newline (pySplitWs line)) 2 with h2 | ⟨v, h2⟩
    · simp only [_parse_stockholm_line_gc, h1, hdup', Bool.false_eq_true, if_false,
        h2, Except.error.injEq] at h
      exact Or.inl h.symm
    · simp only [_parse_stockholm_line_gc, h1, hdup', Bool.false_eq_true, if_false,
        h2] at h
      exact Except.noConfusion h

theorem data_ok_inv {line : String} {d d' : DnaData}
    (h : _parse_stockholm_line_data line d = .ok d') :
    ∃ name, (pySplitWs line).head? = some name ∧ alistLookup d name = none ∧
      d'.map Prod.fst = d.map Prod.fst ++ [name] := by
  rcases pyGet_cases (pySplitWs line) 0 with h0 | ⟨name, h0⟩
  · simp only [_parse_stockholm_line_data, h0] at h
    exact Except.noConfusion h
  have hhead : (pySplitWs line).head? = some name := by
    have := h0
    unfold pyGet at this
    cases hg : (pySplitWs line).get? 0 with
    | none => rw [hg] at this; exact Except.noConfusion this
    | some x =>
      rw [hg] at this
      injection this with hx
      rw [← List.get?_zero, hg, hx]
  by_cases hfresh : (alistLookup d name).isNone = true
  · rcases pyGet_cases (pySplitWs line) 1 with h1 | ⟨s, h1⟩
    · simp only [_parse_stockholm_line_data, h0, hfresh, if_true, h1] at h
      exact Except.noConfusion h
    · simp only [_parse_stockholm_line_data, h0, hfresh, if_true, h1,
        Except.ok.injEq] at h
      refine ⟨name, hhead, Option.isNone_iff_eq_none.mp hfresh, ?_⟩
      rw [← h]
      exact alistUpd_keys_of_none _ (Option.isNone_iff_eq_none.mp hfresh)
  · have hfresh' : (alistLookup d name).isNone = false := eq_false_of_ne_true hfresh
    simp only [_parse_stockholm_line_data, h0, hfresh', Bool.false_eq_true,
      if_false] at h
    exact Except.noConfusion h

theorem data_error_classify {line : String} {d : DnaData} {e : PyError}
    (h : _parse_stockholm_line_data line d = .error e) :
    e = .indexError ∨ ∃ n, e = .stockholm (.multipleDataLines n) := by
  rcases pyGet_cases (pySplitWs line) 0 with h0 | ⟨name, h0⟩
  · simp only [_parse_stockholm_line_data, h0, Except.error.injEq] at h
    exact Or.inl h.symm
  by_cases hfresh : (alistLookup d name).isNone = true
  · rcases pyGet_cases (pySplitWs line) 1 with h1 | ⟨s, h1⟩
    · simp only [_parse_stockholm_line_data, h0, hfresh, if_true, h1,
        Except.error.injEq] at h
      exact Or.inl h.symm
    · simp only [_parse_stockholm_line_data, h0, hfresh, if_true, h1] at h
      exact Except.noConfusion h
  · have hfresh' : (alistLookup d name).isNone = false := eq_false_of_ne_true hfresh
    simp only [_parse_stockholm_line_data, h0, hfresh', Bool.false_eq_true,
      if_false, Except.error.injEq] at h
    exact Or.inr ⟨name, h.symm⟩

theorem dataLabels_cons_data {line name : String} (hd : is_data_line line = true)
    (hh : (pySplitWs line).head? = some name) (rest : List String) :
    dataLabels (line :: rest) = name :: dataLabels rest := by
  simp [dataLabels, List.filterMap_cons, hd, hh]

theorem dataLabels_cons_nondata {line : String} (hd : is_data_line line = false)
    (rest : List String) :
    dataLabels (line :: rest) = dataLabels rest := by
  simp [dataLabels, List.filterMap_cons, hd]

theorem mem_dataLabels {lines : List String} {line name : String}
    (hmem : line ∈ lines) (hd : is_data_line line = true)
    (hh : (pySplitWs line).head? = some name) : name ∈ dataLabels lines :=
  List.mem_filterMap.mpr ⟨line, hmem, by simp [hd, hh]⟩

theorem dataPass_ok_keys : ∀ (lines : List String) (d d' : DnaData),
    dataPass lines d = .ok d' →
    d'.map Prod.fst = d.map Prod.fst ++ dataLabels lines := by
  intro lines
  induction lines with
  | nil =>
    intro d d' h
    simp only [dataPass, Except.ok.injEq] at h
    subst h
    simp [dataLabels]
  | cons line rest ih =>
    intro d d' h
    by_cases hd : is_data_line line = true
    · simp only [dataPass, hd, if_true] at h
      cases hp : _parse_stockholm_line_data line d with
      | error e =>
        simp only [hp] at h
        exact Except.noConfusion h
      | ok dmid =>
        simp only [hp] at h
        obtain ⟨name, hh, -, hkeys⟩ := data_ok_inv hp
        rw [ih _ _ h, hkeys, dataLabels_cons_data hd hh rest]
        simp
    · have hd' : is_data_line line = false := eq_false_of_ne_true hd
      simp only [dataPass, hd', Bool.false_eq_true, if_false] at h
      rw [ih _ _ h, dataLabels_cons_nondata hd' rest]

theorem dataPass_error_classify : ∀ (lines : List String) (d : DnaData) (e : PyError),
    dataPass lines d = .error e →
    e = .indexError ∨ ∃ n, e = .stockholm (.multipleDataLines n) := by
  intro lines
  induction lines with
  | nil =>
    intro d e h
    simp only [dataPass] at h
    exact Except.noConfusion h
  | cons line rest ih =>
    intro d e h
    by_cases hd : is_data_line line = true
    · simp only [dataPass, hd, if_true] at h
      cases hp : _parse_stockholm_line_data line d with
      | error e₀ =>
        simp only [hp, Except.error.injEq] at h
        rw [← h]
        exact data_error_classify hp
      | ok dmid =>
        simp only [hp] at h
        exact ih _ _ h
    · have hd' : is_data_line line = false := eq_false_of_ne_true hd
      simp only [dataPass, hd', Bool.false_eq_true, if_false] at h
      exact ih _ _ h

theorem dataPass_no_data : ∀ (lines : List String) (d : DnaData),
    (∀ line ∈ lines, is_data_line line = false) → dataPass lines d = .ok d := by
  intro lines
  induction lines with
  | nil => intro d _; rfl
  | cons line rest ih =>
    intro d hnd
    have hd : is_data_line line = false := hnd line (List.mem_cons_self line rest)
    simp only [dataPass, hd, Bool.false_eq_true, if_false]
    exact ih d (fun l hl => hnd l (List.mem_cons_of_mem line hl))

theorem dataPass_ok_head : ∀ (lines : List String) (d d' : DnaData),
    dataPass lines d = .ok d' →
    ∀ line ∈ lines, is_data_line line = true →
      ∃ name, (pySplitWs line).head? = some name := by
  intro lines
  induction lines with
  | nil =>
    intro d d' _ line hmem
    exact absurd hmem (List.not_mem_nil line)
  | cons a t ih =>
    intro d d' h line hmem hdl
    by_cases hd : is_data_line a = true
    · simp only [dataPass, hd, if_true] at h
      cases hp : _parse_stockholm_line_data a d with
      | error e =>
        simp only [hp] at h
        exact Except.noConfusion h
      | ok dmid =>
        simp only [hp] at h
        rcases List.mem_cons.mp hmem with rfl | hmem'
        · obtain ⟨name, hh, -, -⟩ := data_ok_inv hp
          exact ⟨name, hh⟩
        · exact ih _ _ h line hmem' hdl
    · have hd' : is_data_line a = false := eq_false_of_ne_true hd
      simp only [dataPass, hd', Bool.false_eq_true, if_false] at h
      rcases List.mem_cons.mp hmem with rfl | hmem'
      · rw [hd'] at hdl
        exact Bool.noConfusion hdl
      · exact ih _ _ h line hmem' hdl

theorem markupPass_ok_inv : ∀ (lines : List String) (m : List (String × String))
    (d : DnaData) (p : List (String × List Char))
    (r : List (String × String) × DnaData × List (String × List Char)),
    markupPass lines m d p = .ok r →
    r.2.1.map Prod.fst = d.map Prod.fst ∧
    (∀ line ∈ lines, pyStartsWith line "#=GS" = true →
      ∀ name, pyGet (_remove_newline (pySplitSp line 3)) 1 = .ok name →
        name ∈ d.map Prod.fst) ∧
    (∀ line ∈ lines, pyStartsWith line "#=GR" = true →
      ∀ name, pyGet (_remove_newline (pySplitWs line)) 1 = .ok name →
        name ∈ d.map Prod.fst) := by
  intro lines
  induction lines with
  | nil =>
    intro m d p r h
    simp only [markupPass, Except.ok.injEq] at h
    subst h
    refine ⟨rfl, ?_, ?_⟩ <;>
      exact fun line hmem => absurd hmem (List.not_mem_nil line)
  | cons line rest ih =>
    intro m d p r h
    by_cases h1 : pyStartsWith line "#=GF" = true
    · simp only [markupPass, h1, if_true] at h
      cases hp : _parse_stockholm_line_gf line m with
      | error e =>
        simp only [hp] at h
        exact Except.noConfusion h
      | ok m' =>
        simp only [hp] at h
        obtain ⟨hk, hgs, hgr⟩ := ih _ _ _ _ h
        refine ⟨hk, ?_, ?_⟩
        · intro l hmem hpre name hget
          rcases List.mem_cons.mp hmem with rfl | hmem'
          · rw [pyStartsWith_disjoint (by decide) (by decide) hpre] at h1
            exact Bool.noConfusion h1
          · exact hgs l hmem' hpre name hget
        · intro l hmem hpre name hget
          rcases List.mem_cons.mp hmem with rfl | hmem'
          · rw [pyStartsWith_disjoint (by decide) (by decide) hpre] at h1
            exact Bool.noConfusion h1
          · exact hgr l hmem' hpre name hget
    · have h1' : pyStartsWith line "#=GF" = false := eq_false_of_ne_true h1
      simp only [markupPass, h1', Bool.false_eq_true, if_false] at h
      by_cases h2 : pyStartsWith line "#=GS" = true
      · simp only [h2, if_true] at h
        cases hp : _parse_stockholm_line_gs line d with
        | error e =>
          simp only [hp] at h
          exact Except.noConfusion h
        | ok d' =>
          simp only [hp] at h
          obtain ⟨hkeq, hsmem⟩ := gs_ok_inv hp
          obtain ⟨hk, hgs, hgr⟩ := ih _ _ _ _ h
          refine ⟨hk.trans hkeq, ?_, ?_⟩
          · intro l hmem hpre name hget
            rcases List.mem_cons.mp hmem with rfl | hmem'
            · exact alistLookup_isSome_mem_keys (hsmem name hget)
            · rw [← hkeq]
              exact hgs l hmem' hpre name hget
          · intro l hmem hpre name hget
            rcases List.mem_cons.mp hmem with rfl | hmem'
            · rw [pyStartsWith_disjoint (by decide) (by decide) hpre] at h2
              exact Bool.noConfusion h2
            · rw [← hkeq]
              exact hgr l hmem' hpre name hget
      · have h2' : pyStartsWith line "#=GS" = false := eq_false_of_ne_true h2
        simp only [h2', Bool.false_eq_true, if_false] at h
        by_cases h3 : pyStartsWith line "#=GR" = true
        · simp only [h3, if_true] at h
          cases hp : _parse_stockholm_line_gr line d with
          | error e =>
            simp only [hp] at h
            exact Except.noConfusion h
          | ok d' =>
            simp only [hp] at h
            obtain ⟨hkeq, hrmem⟩ := gr_ok_inv hp
            obtain ⟨hk, hgs, hgr⟩ := ih _ _ _ _ h
            refine ⟨hk.trans hkeq, ?_, ?_⟩
            · intro l hmem hpre name hget
              rcases List.mem_cons.mp hmem with rfl | hmem'
              · rw [hpre] at h2'
                exact Bool.noConfusion h2'
              · rw [← hkeq]
                exact hgs l hmem' hpre name hget
            · intro l hmem hpre name hget
              rcases List.mem_cons.mp hmem with rfl | hmem'
              · exact alistLookup_isSome_mem_keys (hrmem name hget)
              · rw [← hkeq]
                exact hgr l hmem' hpre name hget
        · have h3' : pyStartsWith line "#=GR" = false := eq_false_of_ne_true h3
          simp only [h3', Bool.false_eq_true, if_false] at h
          by_cases h4 : pyStartsWith line "#=GC" = true
          · simp only [h4, if_true] at h
            cases hp : _parse_stockholm_line_gc line p with
            | error e =>
              simp only [hp] at h
              exact Except.noConfusion h
            | ok p' =>
              simp only [hp] at h
              obtain ⟨hk, hgs, hgr⟩ := ih _ _ _ _ h
              refine ⟨hk, ?_, ?_⟩
              · intro l hmem hpre name hget
                rcases List.mem_cons.mp hmem with rfl | hmem'
                · rw [hpre] at h2'
                  exact Bool.noConfusion h2'
                · exact hgs l hmem' hpre name hget
              · intro l hmem hpre name hget
                rcases List.mem_cons.mp hmem with rfl | hmem'
                · rw [hpre] at h3'
                  exact Bool.noConfusion h3'
                · exact hgr l hmem' hpre name hget
          · have h4' : pyStartsWith line "#=GC" = false := eq_false_of_ne_true h4
            simp only [h4', Bool.false_eq_true, if_false] at h
            obtain ⟨hk, hgs, hgr⟩ := ih _ _ _ _ h
            refine ⟨hk, ?_, ?_⟩
            · intro l hmem hpre name hget
              rcases List.mem_cons.mp hmem with rfl | hmem'
              · rw [hpre] at h2'
                exact Bool.noConfusion h2'
              · exact hgs l hmem' hpre name hget
            · intro l hmem hpre name hget
              rcases List.mem_cons.mp hmem with rfl | hmem'
              · rw [hpre] at h3'
                exact Bool.noConfusion h3'
              · exact hgr l hmem' hpre name hget

theorem markupPass_error_classify : ∀ (lines : List String) (m : List (String × String))
    (d : DnaData) (p : List (String × List Char)) (e : PyError),
    markupPass lines m d p = .error e → e ≠ .stockholm .noData := by
  intro lines
  induction lines with
  | nil =>
    intro m d p e h
    simp only [markupPass] at h
    exact Except.noConfusion h
  | cons line rest ih =>
    intro m d p e h
    by_cases h1 : pyStartsWith line "#=GF" = true
    · simp only [markupPass, h1, if_true] at h
      cases hp : _parse_stockholm_line_gf line m with
      | error e₀ =>
        simp only [hp, Except.error.injEq] at h
        rw [← h, gf_error_classify hp]
        simp
      | ok m' =>
        simp only [hp] at h
        exact ih _ _ _ _ h
    · have h1' : pyStartsWith line "#=GF" = false := eq_false_of_ne_true h1
      simp only [markupPass, h1', Bool.false_eq_true, if_false] at h
      by_cases h2 : pyStartsWith line "#=GS" = true
      · simp only [h2, if_true] at h
        cases hp : _parse_stockholm_line_gs line d with
        | error e₀ =>
          simp only [hp, Except.error.injEq] at h
          rw [← h]
          rcases gs_error_classify hp with he | ⟨n, he⟩ <;> simp [he]
        | ok d' =>
          simp only [hp] at h
          exact ih _ _ _ _ h
      · have h2' : pyStartsWith line "#=GS" = false := eq_false_of_ne_true h2
        simp only [h2', Bool.false_eq_true, if_false] at h
        by_cases h3 : pyStartsWith line "#=GR" = true
        · simp only [h3, if_true] at h
          cases hp : _parse_stockholm_line_gr line d with
          | error e₀ =>
            simp only [hp, Except.error.injEq] at h
            rw [← h]
            rcases gr_error_classify hp with he | ⟨n, he⟩ | ⟨f, n, he⟩ <;> simp [he]
          | ok d' =>
            simp only [hp] at h
            exact ih _ _ _ _ h
        · have h3' : pyStartsWith line "#=GR" = false := eq_false_of_ne_true h3
          simp only [h3', Bool.false_eq_true, if_false] at h
          by_cases h4 : pyStartsWith line "#=GC" = true
          · simp only [h4, if_true] at h
            cases hp : _parse_stockholm_line_gc line p with
            | error e₀ =>
              simp only [hp, Except.error.injEq] at h
              rw [← h]
              rcases gc_error_classify hp with he | ⟨f, he⟩ <;> simp [he]
            | ok p' =>
              simp only [hp] at h
              exact ih _ _ _ _ h
          · have h4' : pyStartsWith line "#=GC" = false := eq_false_of_ne_true h4
            simp only [h4', Bool.false_eq_true, if_false] at h
            exact ih _ _ _ _ h

/-- Heads that yield no label contribute nothing to `dataLabels`. -/
theorem dataLabels_cons_data_nohead {line : String} (hd : is_data_line line = true)
    (hh : (pySplitWs line).head? = none) (rest : List String) :
    dataLabels (line :: rest) = dataLabels rest := by
  simp [dataLabels, List.filterMap_cons, hd, hh]

theorem dataLabels_filter (ls : List String) :
    dataLabels (ls.filter is_data_line) = dataLabels ls := by
  induction ls with
  | nil => rfl
  | cons a t iht =>
    by_cases hd : is_data_line a = true
    · have hfc : List.filter is_data_line (a :: t) = a :: List.filter is_data_line t := by
        simp [List.filter_cons, hd]
      rw [hfc]
      cases hh : (pySplitWs a).head? with
      | none => rw [dataLabels_cons_data_nohead hd hh, dataLabels_cons_data_nohead hd hh, iht]
      | some n => rw [dataLabels_cons_data hd hh, dataLabels_cons_data hd hh, iht]
    · have hd' : is_data_line a = false := eq_false_of_ne_true hd
      have hfc : List.filter is_data_line (a :: t) = List.filter is_data_line t := by
        simp [List.filter_cons, hd']
      rw [hfc, dataLabels_cons_nondata hd', iht]

/-! ## Driver-level claims -/

/-- Counterexample to claim C1 as stated: a `#=GS` line that references
label `seq1`, placed before the only data line for `seq1`, does not make the
parse fail — the data pass runs to completion first, so the markup pass
finds the label and the parse succeeds (and even applies the GS metadata). -/
theorem markup_before_data_cex :
    pyStartsWith "#=GS seq1 AC x\n" "#=GS" = true ∧
    pyGet (_remove_newline (pySplitSp "#=GS seq1 AC x\n" 3)) 1 = .ok "seq1" ∧
    _stockholm_to_tabular_msa ["#=GS seq1 AC x\n", "seq1 AAA\n"] =
      .ok { seqs := [{ seq := "AAA", metadata := some [("AC", "x")],
                       positional_metadata := none }],
            metadata := [], positional_metadata := none, index := ["seq1"] } :=
  ⟨by decide, by decide, by decide⟩

/-- Claim C1 (amended): a `#=GS` or `#=GR` line referencing a label that
appears on no data line anywhere in the stream makes the whole parse fail,
and the error raised at such a line is the markup-references-nonexistent-data
error; but a markup line whose label appears on a data line anywhere in the
file — even later than the markup line — finds that label, because the data
pass runs to completion before the markup pass. -/
theorem markup_unknown_label_fails :
    (∀ (lines : List String) (line name : String), line ∈ lines →
      pyStartsWith line "#=GS" = true →
      pyGet (_remove_newline (pySplitSp line 3)) 1 = .ok name →
      name ∉ dataLabels lines →
      ∀ msa, _stockholm_to_tabular_msa lines ≠ .ok msa) ∧
    (∀ (lines : List String) (line name : String), line ∈ lines →
      pyStartsWith line "#=GR" = true →
      pyGet (_remove_newline (pySplitWs line)) 1 = .ok name →
      name ∉ dataLabels lines →
      ∀ msa, _stockholm_to_tabular_msa lines ≠ .ok msa) ∧
    (∀ (line : String) (d : DnaData) (name feat : String),
      pyGet (_remove_newline (pySplitSp line 3)) 1 = .ok name →
      pyGet (_remove_newline (pySplitSp line 3)) 2 = .ok feat →
      alistLookup d name = none →
      _parse_stockholm_line_gs line d =
        .error (.stockholm (.nonexistentData name))) ∧
    (∀ (line : String) (d : DnaData) (name feat : String),
      pyGet (_remove_newline (pySplitWs line)) 1 = .ok name →
      pyGet (_remove_newline (pySplitWs line)) 2 = .ok feat →
      alistLookup d name = none →
      _parse_stockholm_line_gr line d =
        .error (.stockholm (.nonexistentData name))) := by
  refine ⟨?_, ?_, ?_, ?_⟩
  · intro lines line name hmem hpre hget hnot msa hok
    cases h0 : dataPass lines [] with
    | error e =>
      simp only [_stockholm_to_tabular_msa, h0] at hok
      exact Except.noConfusion hok
    | ok d0 =>
      cases h1 : markupPass lines [] d0 [] with
      | error e =>
        simp only [_stockholm_to_tabular_msa, h0, h1] at hok
        exact Except.noConfusion hok
      | ok r =>
        have hmeml := (markupPass_ok_inv lines [] d0 [] r h1).2.1 line hmem hpre name hget
        have hkeys := dataPass_ok_keys lines [] d0 h0
        rw [hkeys] at hmeml
        exact hnot (by simpa using hmeml)
  · intro lines line name hmem hpre hget hnot msa hok
    cases h0 : dataPass lines [] with
    | error e =>
      simp only [_stockholm_to_tabular_msa, h0] at hok
      exact Except.noConfusion hok
    | ok d0 =>
      cases h1 : markupPass lines [] d0 [] with
      | error e =>
        simp only [_stockholm_to_tabular_msa, h0, h1] at hok
        exact Except.noConfusion hok
      | ok r =>
        have hmeml := (markupPass_ok_inv lines [] d0 [] r h1).2.2 line hmem hpre name hget
        have hkeys := dataPass_ok_keys lines [] d0 h0
        rw [hkeys] at hmeml
        exact hnot (by simpa using hmeml)
  · intro line d name feat h1 h2 hlook
    simp only [_parse_stockholm_line_gs, h1, h2, hlook]
  · intro line d name feat h1 h2 hlook
    simp only [_parse_stockholm_line_gr, h1, h2, hlook]

/-- Witness for the amended C1 at a concrete input: a `#=GS` line naming a
label absent from the (empty) collected data fails with the
nonexistent-data error. -/
theorem markup_unknown_label_fails_wit :
    pyGet (_remove_newline (pySplitSp "#=GS q AC x\n" 3)) 1 = .ok "q" ∧
    pyGet (_remove_newline (pySplitSp "#=GS q AC x\n" 3)) 2 = .ok "AC" ∧
    alistLookup ([] : DnaData) "q" = none ∧
    _parse_stockholm_line_gs "#=GS q AC x\n" [] =
      .error (.stockholm (.nonexistentData "q")) :=
  ⟨by decide, by decide, by decide,
    markup_unknown_label_fails.2.2.1 "#=GS q AC x\n" [] "q" "AC"
      (by decide) (by decide) (by decide)⟩

/-- Claim C4: on every successful parse, the output index equals the
first-appearance order of labels among data lines, the output sequence list
is positionally aligned with that index (same length), and the label order
is a function of the data lines alone — it is unchanged by discarding all
non-data (markup, terminator, blank) lines. -/
theorem msa_order_first_appearance (lines : List String) (msa : MSA)
    (h : _stockholm_to_tabular_msa lines = .ok msa) :
    msa.index = dataLabels lines ∧
    msa.seqs.length = (dataLabels lines).length ∧
    dataLabels (lines.filter is_data_line) = dataLabels lines := by
  cases h0 : dataPass lines [] with
  | error e =>
    simp only [_stockholm_to_tabular_msa, h0] at h
    exact Except.noConfusion h
  | ok d0 =>
    cases h1 : markupPass lines [] d0 [] with
    | error e =>
      simp only [_stockholm_to_tabular_msa, h0, h1] at h
      exact Except.noConfusion h
    | ok r =>
      obtain ⟨m, dfin, p⟩ := r
      simp only [_stockholm_to_tabular_msa, h0, h1] at h
      have hkeys : dfin.map Prod.fst = dataLabels lines := by
        have hk1 := (markupPass_ok_inv lines [] d0 [] (m, dfin, p) h1).1
        have hk2 := dataPass_ok_keys lines [] d0 h0
        simpa using hk1.trans hk2
      by_cases hemp : (dfin.map (fun kv => assembleSeq kv.2)).isEmpty = true
      · simp only [hemp, if_true] at h
        exact Except.noConfusion h
      · have hemp' : (dfin.map (fun kv => assembleSeq kv.2)).isEmpty = false :=
          eq_false_of_ne_true hemp
        simp only [hemp', Bool.false_eq_true, if_false, Except.ok.injEq] at h
        subst h
        refine ⟨hkeys, ?_, dataLabels_filter lines⟩
        rw [← hkeys]
        simp

/-- Witness for C4 at a concrete input: two data lines parse into an
alignment whose index is their label order. -/
theorem msa_order_first_appearance_wit :
    _stockholm_to_tabular_msa ["s1 AA\n", "s2 BB\n"] = .ok
      { seqs := [{ seq := "AA", metadata := none, positional_metadata := none },
                 { seq := "BB", metadata := none, positional_metadata := none }],
        metadata := [], positional_metadata := none, index := ["s1", "s2"] } ∧
    ({ seqs := [{ seq := "AA", metadata := none, positional_metadata := none },
                { seq := "BB", metadata := none, positional_metadata := none }],
       metadata := [], positional_metadata := none,
       index := ["s1", "s2"] } : MSA).index = dataLabels ["s1 AA\n", "s2 BB\n"] :=
  ⟨by decide, (msa_order_first_appearance ["s1 AA\n", "s2 BB\n"] _ (by decide)).1⟩

/-- Counterexample to claim C8 as stated: `"#=GS a b c\n"` is an input with
zero data lines, yet its parse fails with the nonexistent-data markup error
raised during the markup pass — not with the empty-alignment error. -/
theorem zero_data_lines_markup_error_cex :
    is_data_line "#=GS a b c\n" = false ∧
    _stockholm_to_tabular_msa ["#=GS a b c\n"] =
      .error (.stockholm (.nonexistentData "a")) :=
  ⟨by decide, by decide⟩

/-- Claim C8 (amended): an input with zero data lines never parses
successfully; when its markup pass raises no error (in particular for the
empty input and for terminator/blank-only inputs) the parse fails with
exactly the no-data-present error; and on any input with at least one data
line the no-data-present error is never raised. -/
theorem empty_alignment_behavior :
    (∀ lines : List String, (∀ line ∈ lines, is_data_line line = false) →
      ∀ msa, _stockholm_to_tabular_msa lines ≠ .ok msa) ∧
    (∀ (lines : List String)
        (r : List (String × String) × DnaData × List (String × List Char)),
      (∀ line ∈ lines, is_data_line line = false) →
      markupPass lines [] [] [] = .ok r →
      _stockholm_to_tabular_msa lines = .error (.stockholm .noData)) ∧
    (∀ lines : List String, (∃ line ∈ lines, is_data_line line = true) →
      _stockholm_to_tabular_msa lines ≠ .error (.stockholm .noData)) := by
  refine ⟨?_, ?_, ?_⟩
  · intro lines hnd msa hok
    have h0 : dataPass lines [] = .ok [] := dataPass_no_data lines [] hnd
    cases h1 : markupPass lines [] [] [] with
    | error e =>
      simp only [_stockholm_to_tabular_msa, h0, h1] at hok
      exact Except.noConfusion hok
    | ok r =>
      obtain ⟨m, dfin, p⟩ := r
      have hdnil : dfin = [] := by
        have hk := (markupPass_ok_inv lines [] [] [] (m, dfin, p) h1).1
        simpa using hk
      subst hdnil
      simp only [_stockholm_to_tabular_msa, h0, h1, List.map_nil, List.isEmpty_nil,
        if_true] at hok
      exact Except.noConfusion hok
  · intro lines r hnd h1
    have h0 : dataPass lines [] = .ok [] := dataPass_no_data lines [] hnd
    obtain ⟨m, dfin, p⟩ := r
    have hdnil : dfin = [] := by
      have hk := (markupPass_ok_inv lines [] [] [] (m, dfin, p) h1).1
      simpa using hk
    subst hdnil
    simp only [_stockholm_to_tabular_msa, h0, h1, List.map_nil, List.isEmpty_nil,
      if_true]
  · intro lines hex hcon
    obtain ⟨line, hmem, hdl⟩ := hex
    cases h0 : dataPass lines [] with
    | error e =>
      simp only [_stockholm_to_tabular_msa, h0, Except.error.injEq] at hcon
      rcases dataPass_error_classify lines [] e h0 with he | ⟨n, he⟩ <;>
        rw [he] at hcon <;> simp at hcon
    | ok d0 =>
      cases h1 : markupPass lines [] d0 [] with
      | error e =>
        simp only [_stockholm_to_tabular_msa, h0, h1, Except.error.injEq] at hcon
        exact markupPass_error_classify lines [] d0 [] e h1 hcon
      | ok r =>
        obtain ⟨m, dfin, p⟩ := r
        simp only [_stockholm_to_tabular_msa, h0, h1] at hcon
        by_cases hemp : (dfin.map (fun kv => assembleSeq kv.2)).isEmpty = true
        · have hdnil : dfin = [] := by
            cases dfin with
            | nil => rfl
            | cons x xs => simp at hemp
          have hkeys : dfin.map Prod.fst = dataLabels lines := by
            have hk1 := (markupPass_ok_inv lines [] d0 [] (m, dfin, p) h1).1
            have hk2 := dataPass_ok_keys lines [] d0 h0
            simpa using hk1.trans hk2
          obtain ⟨name, hh⟩ := dataPass_ok_head lines [] d0 h0 line hmem hdl
          have hmemlbl := mem_dataLabels hmem hdl hh
          rw [← hkeys, hdnil] at hmemlbl
          simp at hmemlbl
        · have hemp' : (dfin.map (fun kv => assembleSeq kv.2)).isEmpty = false :=
            eq_false_of_ne_true hemp
          simp only [hemp', Bool.false_eq_true, if_false] at hcon
          exact Except.noConfusion hcon

/-- Witness for the amended C8: the terminator-only input fails with the
no-data-present error; an input with one data line does not. -/
theorem empty_alignment_behavior_wit :
    (∀ line ∈ (["//\n"] : List String), is_data_line line = false) ∧
    markupPass ["//\n"] [] [] [] = .ok ([], [], []) ∧
    _stockholm_to_tabular_msa ["//\n"] = .error (.stockholm .noData) ∧
    (∃ line ∈ (["a b\n"] : List String), is_data_line line = true) ∧
    _stockholm_to_tabular_msa ["a b\n"] ≠ .error (.stockholm .noData) :=
  ⟨by decide, by decide,
    empty_alignment_behavior.2.1 ["//\n"] ([], [], []) (by decide) (by decide),
    ⟨"a b\n", by decide, by decide⟩,
    empty_alignment_behavior.2.2 ["a b\n"] ⟨"a b\n", by decide, by decide⟩⟩

end Stockholm
